import Mathlib

/-!
Verification development for the MicroASM language-server static analysis
engine (`server/src/completion.ts`, `server/src/validation.ts`).

Strings are modelled as `List Char` (`Str`); JavaScript string primitives
(`trim`, `split`, `indexOf`, `substring`, `toUpperCase`, ...) are translated
one-for-one below.  File paths and document URIs are identified (the code only
round-trips them through `URI.parse(...).fsPath` / `URI.file(...)`), and the
file system is an association list from path to file content.
-/

namespace MasmLsp

/-- Strings, modelled as lists of characters. -/
abbrev Str := List Char

/-- Coerce a Lean string literal to the `Str` model. -/
def str (s : String) : Str := s.data

/-- JavaScript `toUpperCase` (ASCII, which is all the source uses). -/
def toUpperStr (s : Str) : Str := s.map Char.toUpper

/-- JavaScript `toLowerCase` (ASCII). -/
def toLowerStr (s : Str) : Str := s.map Char.toLower

/-- JavaScript `String.prototype.trim`: drop whitespace at both ends. -/
def trimStr (s : Str) : Str :=
  ((s.dropWhile Char.isWhitespace).reverse.dropWhile Char.isWhitespace).reverse

/-- Helper for `splitWs`: accumulates the current token in reverse. -/
def splitWsAux : Str → Str → List Str
  | [], cur => if cur.isEmpty then [] else [cur.reverse]
  | c :: rest, cur =>
    if c.isWhitespace then
      if cur.isEmpty then splitWsAux rest []
      else cur.reverse :: splitWsAux rest []
    else splitWsAux rest (c :: cur)

/-- JavaScript `s.split(/\s+/).filter(t => t.length > 0)`: split on runs of
whitespace, keeping only the non-empty tokens. -/
def splitWs (s : Str) : List Str := splitWsAux s []

/-- `stripComment` from `validation.ts`: everything from the first `;` on is
removed and the remainder trimmed; a line without `;` is returned unchanged. -/
def stripComment (line : Str) : Str :=
  if line.contains ';' then trimStr (line.takeWhile (fun c => c ≠ ';'))
  else line

/-- Helper for `splitLines`: the JS separator regex is `/\r?\n/g`, so a `\r`
immediately before a `\n` belongs to the separator.  The current line is
accumulated in reverse. -/
def splitLinesAux : Str → Str → List Str
  | [], cur => [cur.reverse]
  | c :: rest, cur =>
    if c = '\n' then
      (match cur with
       | '\r' :: cur2 => cur2.reverse
       | _ => cur.reverse) :: splitLinesAux rest []
    else splitLinesAux rest (c :: cur)

/-- JavaScript `text.split(/\r?\n/g)`. -/
def splitLines (s : Str) : List Str := splitLinesAux s []

/-- First index `k ≥ start` at which `pat` occurs in `s` (as a contiguous
sublist), if any.  This is JS `indexOf` restricted to non-negative start. -/
def strIndexOfFromNat (s pat : Str) (start : Nat) : Option Nat :=
  ((List.range (s.length + 1)).filter
    (fun k => decide (start ≤ k) && List.isPrefixOf pat (s.drop k))).head?

/-- JavaScript `s.indexOf(pat, fromIdx)`: a negative `fromIdx` is clamped to
0, and the result is `-1` when `pat` does not occur at or after `fromIdx`. -/
def strIndexOfFrom (s pat : Str) (fromIdx : Int) : Int :=
  match strIndexOfFromNat s pat fromIdx.toNat with
  | some k => (k : Int)
  | none => -1

/-- JavaScript `s.indexOf(pat)`. -/
def strIndexOf (s pat : Str) : Int := strIndexOfFrom s pat 0

/-- JavaScript `s.substring(idx)`: the start index is clamped to `[0, len]`. -/
def substringFrom (s : Str) (idx : Int) : Str := s.drop idx.toNat

/-- Render a natural number the way JS template literals do. -/
def natStr (n : Nat) : Str := (Nat.repr n).data

/-- Render an integer the way JS template literals do. -/
def intStr (n : Int) : Str := (Int.repr n).data

/-! ## Regex models (`completion.ts` lines 405-411)

Each `RegExp` of the source denotes a decidable language; the functions below
decide exactly those languages. -/

/-- The nine individually named registers of `registerRegex`. -/
def namedRegisters : List Str :=
  [str "RAX", str "RBX", str "RCX", str "RDX", str "RSI",
   str "RDI", str "RBP", str "RSP", str "RIP"]

/-- `registerRegex = /^(RAX|RBX|RCX|RDX|RSI|RDI|RBP|RSP|RIP|R[0-9]|R1[0-5])$/`.
Note: the source regex has no `i` flag, so matching is case-sensitive. -/
def registerRegexTest (s : Str) : Bool :=
  namedRegisters.contains s ||
  (match s with
   | ['R', d] => d.isDigit
   | ['R', '1', d] => decide ('0' ≤ d) && decide (d ≤ '5')
   | _ => false)

/-- The scale-factor pattern inside `isValidMemoryAddress`:
`/^(RAX|...|R1[0-5])\*([1-8])$/` — a register, a literal `*`, one digit 1-8. -/
def scaleRegexTest (part : Str) : Bool :=
  match part.reverse with
  | d :: '*' :: restRev =>
      registerRegexTest restRev.reverse && decide ('1' ≤ d) && decide (d ≤ '8')
  | _ => false

/-- First character of a label name: `[a-zA-Z_]`. -/
def isLabelStartChar (c : Char) : Bool := c.isAlpha || c = '_'

/-- Subsequent characters of a label name: `[a-zA-Z0-9_]`. -/
def isLabelChar (c : Char) : Bool := c.isAlphanum || c = '_'

/-- `/^[a-zA-Z_][a-zA-Z0-9_]*$/` (label-name format used in pass 1). -/
def labelNameTest : Str → Bool
  | [] => false
  | c :: rest => isLabelStartChar c && rest.all isLabelChar

/-- `labelRegex = /^#[a-zA-Z_][a-zA-Z0-9_]*$/`. -/
def labelRefTest : Str → Bool
  | '#' :: rest => labelNameTest rest
  | _ => false

/-- `includeRegex = /^#include\s+"([^"]+)"$/i`: on success returns the
captured file name.  The `i` flag only affects the letters of `include`. -/
def matchInclude (l : Str) : Option Str :=
  match l with
  | '#' :: rest =>
      if (rest.take 7).map Char.toLower = str "include" then
        let afterKw := rest.drop 7
        let ws := afterKw.takeWhile Char.isWhitespace
        if ws.isEmpty then none
        else
          match afterKw.drop ws.length with
          | '"' :: rest2 =>
              let name := rest2.takeWhile (fun c => c ≠ '"')
              if name.isEmpty then none
              else
                match rest2.drop name.length with
                | ['"'] => some name
                | _ => none
          | _ => none
      else none
  | _ => none

/-! ## The addressing-expression validator
(`isValidMemoryAddress`, `completion.ts` lines 414-491) -/

/-- `/^[0-9]+$/.test(s)`. -/
def isDigitsNonempty (s : Str) : Bool := !s.isEmpty && s.all Char.isDigit

/-- Helper for `splitOps`: the current segment is accumulated in reverse. -/
def splitOpsAux : Str → Str → List Str
  | [], cur => if cur.isEmpty then [] else [cur.reverse]
  | c :: rest, cur =>
    if c = '+' || c = '-' then
      (if cur.isEmpty then [[c]] else [cur.reverse, [c]]) ++ splitOpsAux rest []
    else splitOpsAux rest (c :: cur)

/-- JavaScript `expr.split(/([+\-])/).filter(part => part.length > 0)`:
split at every `+`/`-`, keep the operators as their own elements (the capture
group), and drop empty segments. -/
def splitOps (s : Str) : List Str := splitOpsAux s []

/-- Is a part exactly the string `+` or `-`? -/
def isOpPart (p : Str) : Bool := p = ['+'] || p = ['-']

/-- A non-operator part must be a decimal number, a register, or
`register*scale` (the three `continue` cases of the source loop). -/
def isValidTerm (p : Str) : Bool :=
  isDigitsNonempty p || registerRegexTest p || scaleRegexTest p

/-- The per-part loop of `isValidMemoryAddress`: an operator part is fine
unless it is the last part; every other part must be a valid term. -/
def checkParts : List Str → Bool
  | [] => true
  | [p] => if isOpPart p then false else isValidTerm p
  | p :: q :: rest =>
      (if isOpPart p then true else isValidTerm p) && checkParts (q :: rest)

/-- `isValidMemoryAddress` (`completion.ts` 414-491), translated clause by
clause: leading `$`; plain decimal address; otherwise a `[...]`-bracketed
expression split on `+`/`-` whose first part is not an operator and whose
parts all pass the per-part check. -/
def isValidMemoryAddress (address : Str) : Bool :=
  match address with
  | '$' :: content =>
      if isDigitsNonempty content then true
      else if content.head? = some '[' && content.getLast? = some ']' then
        let expr := (content.drop 1).dropLast
        if expr.isEmpty then false
        else
          let parts := splitOps expr
          match parts with
          | [] => false
          | p0 :: _ => if isOpPart p0 then false else checkParts parts
      else false
  | _ => false

/-! ## Levenshtein distance and fuzzy matching
(`completion.ts` lines 505-549) -/

/-- One cell-by-cell pass of the DP matrix fill: given the character `bc` of
the outer row, the remaining characters of `a`, the tail of the previous row
starting at column `j-1`, and the value just written at column `j-1` of the
new row, produce the new row's values from column `j` on.  This is exactly
`matrix[i][j] = min(matrix[i-1][j] + 1, matrix[i][j-1] + 1,
matrix[i-1][j-1] + cost)`. -/
def levGo (bc : Char) : List Char → List Nat → Nat → List Nat
  | ac :: arest, pjm1 :: pj :: prest, left =>
      let cost := if bc = ac then 0 else 1
      let v := min (pj + 1) (min (left + 1) (pjm1 + cost))
      v :: levGo bc arest (pj :: prest) v
  | _, _, _ => []

/-- `levenshteinDistance` (`completion.ts` 505-534): row 0 is `0..a.length`,
row `i` starts with `i`, and the answer is `matrix[b.length][a.length]`. -/
def levenshteinDistance (a b : Str) : Nat :=
  if a.isEmpty then b.length
  else if b.isEmpty then a.length
  else
    let firstRow := List.range (a.length + 1)
    let lastRow := b.enum.foldl
      (fun prev p => (p.1 + 1) :: levGo p.2 a prev (p.1 + 1)) firstRow
    lastRow.getLastD 0

/-- The loop body of `findClosestMatch` (`completion.ts` 541-547): keep the
candidate if its case-insensitive distance strictly improves on the best so
far and stays within `maxDistance`. -/
def fcmStep (input : Str) (maxDistance : Nat) (acc : Option Str × Nat)
    (option : Str) : Option Str × Nat :=
  let distance := levenshteinDistance (toLowerStr input) (toLowerStr option)
  if distance < acc.2 && distance ≤ maxDistance then (some option, distance)
  else acc

/-- `findClosestMatch` (`completion.ts` 537-549): scan the candidates in
order; `minDistance` starts at `maxDistance + 1`.  The source's default
`maxDistance` is 2; callers below pass it explicitly. -/
def findClosestMatch (input : Str) (options : List Str) (maxDistance : Nat) :
    Option Str :=
  (options.foldl (fcmStep input maxDistance)
    ((none : Option Str), maxDistance + 1)).1

/-- Case-insensitive candidate distance, as computed inside
`findClosestMatch`. -/
def distCI (input o : Str) : Nat :=
  levenshteinDistance (toLowerStr input) (toLowerStr o)

/-! ## Static tables (`completion.ts` lines 317-359) -/

/-- `knownInstructions` (already upper-case in the source; the
`.map(toUpperCase)` is the identity on them), in Set insertion order. -/
def knownInstructionsList : List Str :=
  [str "MOV", str "ADD", str "SUB", str "MUL", str "DIV", str "INC",
   str "JMP", str "CMP", str "JE", str "JL", str "CALL",
   str "PUSH", str "POP",
   str "IN", str "OUT", str "COUT",
   str "HLT", str "EXIT",
   str "ARGC", str "GETARG",
   str "DB",
   str "LBL",
   str "AND", str "OR", str "XOR", str "NOT", str "SHL", str "SHR",
   str "MOVADDR", str "MOVTO",
   str "JNE", str "JG", str "JLE", str "JGE",
   str "ENTER", str "LEAVE",
   str "COPY", str "FILL", str "CMP_MEM",
   str "MNI"]

/-- `jumpInstructions`. -/
def jumpInstructionsList : List Str :=
  [str "JMP", str "JE", str "JL", str "CALL", str "JNE", str "JG",
   str "JLE", str "JGE"]

/-- `knownRegisters`. -/
def knownRegistersList : List Str :=
  [str "RAX", str "RBX", str "RCX", str "RDX", str "RSI", str "RDI",
   str "RBP", str "RSP", str "RIP",
   str "R0", str "R1", str "R2", str "R3", str "R4", str "R5", str "R6",
   str "R7", str "R8", str "R9", str "R10", str "R11", str "R12",
   str "R13", str "R14", str "R15"]

/-- A `{min, max}` entry of `instructionArgCounts`; `max = -1` is the
variable-arity sentinel. -/
structure ArgCount where
  min : Nat
  max : Int
deriving DecidableEq, Repr

/-- `instructionArgCounts`. -/
def instructionArgCounts : List (Str × ArgCount) :=
  [(str "MOV", ⟨2, 2⟩), (str "ADD", ⟨2, 2⟩), (str "SUB", ⟨2, 2⟩),
   (str "MUL", ⟨2, 2⟩), (str "DIV", ⟨2, 2⟩), (str "INC", ⟨1, 1⟩),
   (str "JMP", ⟨1, 1⟩), (str "CMP", ⟨2, 2⟩), (str "JE", ⟨1, 2⟩),
   (str "JL", ⟨1, 1⟩), (str "CALL", ⟨1, 1⟩), (str "PUSH", ⟨1, 1⟩),
   (str "POP", ⟨1, 1⟩), (str "IN", ⟨1, 1⟩), (str "OUT", ⟨2, 2⟩),
   (str "COUT", ⟨2, 2⟩), (str "HLT", ⟨0, 0⟩), (str "EXIT", ⟨1, 1⟩),
   (str "ARGC", ⟨1, 1⟩), (str "GETARG", ⟨2, 2⟩), (str "DB", ⟨2, -1⟩),
   (str "LBL", ⟨1, 1⟩), (str "AND", ⟨2, 2⟩), (str "OR", ⟨2, 2⟩),
   (str "XOR", ⟨2, 2⟩), (str "NOT", ⟨1, 1⟩), (str "SHL", ⟨2, 2⟩),
   (str "SHR", ⟨2, 2⟩), (str "MOVADDR", ⟨3, 3⟩), (str "MOVTO", ⟨3, 3⟩),
   (str "JNE", ⟨1, 1⟩), (str "JG", ⟨1, 1⟩), (str "JLE", ⟨1, 1⟩),
   (str "JGE", ⟨1, 1⟩), (str "ENTER", ⟨1, 1⟩), (str "LEAVE", ⟨0, 0⟩),
   (str "COPY", ⟨3, 3⟩), (str "FILL", ⟨3, 3⟩), (str "CMP_MEM", ⟨3, 3⟩),
   (str "MNI", ⟨1, -1⟩)]

/-! ## Association-list model of JavaScript `Map` / `Set`

JS `Map` preserves insertion order; `map.set` on a fresh key appends. -/

/-- `map.get(k)` / `map.has(k)`: first binding of `k`. -/
def lookupA {α : Type} : List (Str × α) → Str → Option α
  | [], _ => none
  | p :: m, k => if p.1 == k then some p.2 else lookupA m k

/-- `map.has(k)`. -/
def hasA {α : Type} (m : List (Str × α)) (k : Str) : Bool :=
  (lookupA m k).isSome

/-- The `if (!m.has(k)) m.set(k, v)` idiom: append a fresh key, keep an
existing binding untouched. -/
def setIfAbsent {α : Type} (m : List (Str × α)) (k : Str) (v : α) :
    List (Str × α) :=
  if hasA m k then m else m ++ [(k, v)]

/-- Unconditional `map.set(k, v)`: overwrite in place, or append. -/
def setA {α : Type} (m : List (Str × α)) (k : Str) (v : α) : List (Str × α) :=
  if hasA m k then m.map (fun p => if p.1 == k then (k, v) else p)
  else m ++ [(k, v)]

/-- JS `Set.add`: membership-only model, append if absent. -/
def addRef (s : List Str) (k : Str) : List Str :=
  if s.contains k then s else s ++ [k]

/-! ## Diagnostics

`Diag` models the LSP `Diagnostic` objects the server builds.  `kind` is a
ghost tag recording which check produced the diagnostic, following the error
taxonomy of the specification; it adds no information that is not already
determined by the producing code path.  `relatedInformation` (only ever a
static usage example) is not modelled. -/

inductive Severity
  | error
  | warn
deriving DecidableEq, Repr

inductive DiagKind
  | includeNotFound (name : Str)
  | circularInclude (path : Str)
  | includeReadError (path : Str)
  | invalidLabelName (name : Str)
  | labelRedefinition (name : Str)
  | invalidDbAddress (name : Str)
  | invalidDbString
  | dbRedefinition (name : Str)
  | unknownInstruction (name : Str)
  | argCountMismatch (instr : Str)
  | popExpectsRegister (arg : Str)
  | unknownRegister (name : Str)
  | invalidLabelRef (arg : Str)
  | undefinedLabel (arg : Str)
  | invalidMemoryAddress (arg : Str)
  | dbAddressUndefined (arg : Str)
  | unknownMniFunction (name : Str)
  | mniArgCountMismatch (name : Str)
  | mniArgTypeMismatch (name : Str)
  | unreachableCode
  | unusedLabel (name : Str)
  | unusedDbAddress (name : Str)
deriving DecidableEq, Repr

structure Pos where
  line : Nat
  character : Int
deriving DecidableEq, Repr

structure Rng where
  start : Pos
  stop : Pos
deriving DecidableEq, Repr

structure Diag where
  severity : Severity
  range : Rng
  message : Str
  kind : DiagKind
  suggestion : Option Str
deriving DecidableEq, Repr

/-- A range on a single line `i` between two character offsets. -/
def mkRng (i : Nat) (a b : Int) : Rng := ⟨⟨i, a⟩, ⟨i, b⟩⟩

/-- The zero range used when no origin is known. -/
def rng0 : Rng := mkRng 0 0 0

/-! ## The symbol resolver (`parseDocumentRecursive`, `completion.ts` 635-818)

The file system is an association list from path to content; document URIs
and file-system paths are identified (`URI.parse(u).fsPath = u`,
`URI.file(p).toString() = p`), which is faithful for the plain relative
include names the code handles.  Open-document contents and on-disk contents
are both looked up in the same map.  Recursion is fuel-indexed: `none` means
the fuel ran out, so any theorem concluding `= some _` certifies that the
recursion terminates within the given depth. -/

structure LabelDef where
  line : Nat
  uri : Str
deriving DecidableEq, Repr

structure DbDef where
  line : Nat
  size : Nat
  uri : Str
deriving DecidableEq, Repr

structure ParsedDocInfo where
  labels : List (Str × LabelDef)
  dbAddresses : List (Str × DbDef)
  includeErrors : List Diag
deriving DecidableEq, Repr

/-- The `originErrorRange` argument: the `#include` line an error should be
anchored on. -/
structure OriginRef where
  line : Nat
  range : Rng
deriving DecidableEq, Repr

abbrev FileSys := List (Str × Str)
abbrev Cache := List (Str × ParsedDocInfo)

/-- `path.dirname` for slash-separated paths ("." when there is no slash). -/
def dirname (p : Str) : Str :=
  if p.contains '/' then ((p.reverse.dropWhile (fun c => c ≠ '/')).drop 1).reverse
  else str "."

/-- `path.resolve(dir, name)` for a plain relative `name`. -/
def joinPath (dir name : Str) : Str := dir ++ '/' :: name

/-- The "Circular include detected" error diagnostic. -/
def circularIncludeDiag (r : Rng) (docUri : Str) : Diag :=
  { severity := .error, range := r,
    message := str "Circular include detected: " ++ docUri,
    kind := .circularInclude docUri, suggestion := none }

/-- The catch-branch "Include file not found" diagnostic for an unreadable
document (modelling the `ENOENT` case of `fs.readFileSync`). -/
def unreadableDocDiag (origin : Option OriginRef) (docUri : Str) : Diag :=
  { severity := .error,
    range := match origin with | some o => o.range | none => rng0,
    message := str "Include file not found: " ++ docUri,
    kind := .includeNotFound docUri, suggestion := none }

/-- The "Include file not found" diagnostic for an include path that resolved
nowhere, including the searched-directories suffix. -/
def includeNotFoundDiag (i : Nat) (rawLine includeFilename : Str)
    (cfg : Option Str) (dir : Str) : Diag :=
  let base := str "Include file not found: " ++ includeFilename
  let msg := match cfg with
    | some cfgPath =>
        base ++ str " (Searched in '" ++ cfgPath ++ str "' and '" ++ dir
          ++ str "')"
    | none => base ++ str " (Searched in '" ++ dir ++ str "')"
  { severity := .error,
    range := mkRng i (strIndexOf rawLine includeFilename)
      (strIndexOf rawLine includeFilename + includeFilename.length),
    message := msg, kind := .includeNotFound includeFilename,
    suggestion := none }

/-- Merge an included file's symbol map into the includer's
(`includedInfo.labels.forEach((val, key) => { if (!current.has(key))
current.set(key, val); })`). -/
def mergeInto {α : Type} (cur inc : List (Str × α)) : List (Str × α) :=
  inc.foldl (fun m kv => setIfAbsent m kv.1 kv.2) cur

/-- The mutable per-document accumulators of `parseDocumentRecursive`,
together with the threaded module-level cache. -/
structure ScanState where
  labels : List (Str × LabelDef)
  dbAddresses : List (Str × DbDef)
  includeErrors : List Diag
  cache : Cache
deriving DecidableEq, Repr

/-- The line loop of `parseDocumentRecursive` (`completion.ts` 696-789).
`parseF` is the recursive resolver applied to included files; keeping it a
parameter makes the line loop structurally recursive. -/
def scanLines
    (parseF : Str → List Str → Option OriginRef → Cache →
      Option (ParsedDocInfo × Cache))
    (fs : FileSys) (cfg : Option Str) (docUri dir : Str)
    (visited : List Str) :
    List (Nat × Str) → ScanState → Option ScanState
  | [], st => some st
  | (i, rawLine) :: rest, st =>
    let line := trimStr rawLine
    if line.isEmpty || line.head? == some ';' then
      scanLines parseF fs cfg docUri dir visited rest st
    else
      match matchInclude line with
      | some includeFilename =>
          -- 1. configured include path first, if defined
          let fromCfg : Option Str :=
            match cfg with
            | some cfgPath =>
                let p := joinPath cfgPath includeFilename
                if (lookupA fs p).isSome then some p else none
            | none => none
          -- 2. otherwise relative to the current file
          let found : Option Str :=
            match fromCfg with
            | some p => some p
            | none =>
                let p := joinPath dir includeFilename
                if (lookupA fs p).isSome then some p else none
          match found with
          | some resolvedUri =>
              let includeRange := mkRng i (strIndexOf rawLine includeFilename)
                (strIndexOf rawLine includeFilename + includeFilename.length)
              match parseF resolvedUri visited (some ⟨i, includeRange⟩)
                  st.cache with
              | none => none
              | some (includedInfo, cache2) =>
                  scanLines parseF fs cfg docUri dir visited rest
                    { labels := mergeInto st.labels includedInfo.labels,
                      dbAddresses :=
                        mergeInto st.dbAddresses includedInfo.dbAddresses,
                      includeErrors :=
                        st.includeErrors ++ includedInfo.includeErrors,
                      cache := cache2 }
          | none =>
              scanLines parseF fs cfg docUri dir visited rest
                { st with includeErrors := st.includeErrors ++
                    [includeNotFoundDiag i rawLine includeFilename cfg dir] }
      | none =>
          -- parse LBL and DB for the current file
          let tokens := splitWs line
          match tokens with
          | [] => scanLines parseF fs cfg docUri dir visited rest st
          | [_] => scanLines parseF fs cfg docUri dir visited rest st
          | t0 :: t1 :: rest2 =>
            if toUpperStr t0 == str "LBL" then
              -- tokens.length > 1 holds here
              scanLines parseF fs cfg docUri dir visited rest
                { st with labels := setIfAbsent st.labels t1 ⟨i, docUri⟩ }
            else if toUpperStr t0 == str "DB" then
              match rest2 with
              | [] => scanLines parseF fs cfg docUri dir visited rest st
              | t2 :: _ =>
                if isValidMemoryAddress t1 && !(hasA st.dbAddresses t1) then
                  let stringLiteral :=
                    trimStr (substringFrom line (strIndexOf line t2))
                  let size :=
                    if stringLiteral.head? == some '"' &&
                        stringLiteral.getLast? == some '"' then
                      stringLiteral.length - 2
                    else 0
                  scanLines parseF fs cfg docUri dir visited rest
                    { st with dbAddresses :=
                        st.dbAddresses ++ [(t1, ⟨i, size, docUri⟩)] }
                else scanLines parseF fs cfg docUri dir visited rest st
            else scanLines parseF fs cfg docUri dir visited rest st

/-- `parseDocumentRecursive` (`completion.ts` 635-818), fuel-indexed.
Returns the resolved info together with the updated cache, or `none` when
the fuel is exhausted before the recursion bottoms out. -/
def parseDocumentRecursive (fs : FileSys) (cfg : Option Str) :
    Nat → Str → List Str → Option OriginRef → Cache →
      Option (ParsedDocInfo × Cache)
  | 0, _, _, _, _ => none
  | fuel + 1, docUri, visitedUris, originErrorRange, cache =>
    match lookupA cache docUri with
    | some cached =>
        if visitedUris.contains docUri then
          match originErrorRange with
          | some o =>
              some ({ cached with includeErrors :=
                cached.includeErrors ++ [circularIncludeDiag o.range docUri] },
                cache)
          | none => some (cached, cache)
        else some (cached, cache)
    | none =>
      if visitedUris.contains docUri then
        -- circular dependency detected
        some ({ labels := [], dbAddresses := [],
                includeErrors := [circularIncludeDiag
                  (match originErrorRange with
                   | some o => o.range
                   | none => rng0) docUri] }, cache)
      else
        let visited2 := visitedUris ++ [docUri]
        match lookupA fs docUri with
        | none =>
            -- readFileSync threw ENOENT; the result is still cached
            let info : ParsedDocInfo :=
              { labels := [], dbAddresses := [],
                includeErrors := [unreadableDocDiag originErrorRange docUri] }
            some (info, setA cache docUri info)
        | some content =>
            let lines := splitLines content
            let dir := dirname docUri
            match scanLines (parseDocumentRecursive fs cfg fuel) fs cfg docUri
                dir visited2 lines.enum ⟨[], [], [], cache⟩ with
            | none => none
            | some st =>
                let info : ParsedDocInfo :=
                  { labels := st.labels, dbAddresses := st.dbAddresses,
                    includeErrors := st.includeErrors }
                some (info, setA st.cache docUri info)

/-! ## The diagnostic engine (`validateTextDocument`, `validation.ts` 6-414)

The function receives the already-resolved `ParsedDocInfo` (the source awaits
`getParsedDocInfo`); settings reduce to `maxNumberOfProblems : Nat` (the
configuration declares a count; `includePath`/`toolchainPath` only influence
the resolver, which is a parameter here).  The MNI signature table is an
association list from qualified name to the argument-kind strings. -/

/-- Diagnostic: unreachable code after a terminator (`validation.ts` 74-83).
`line` is the trimmed line text (its length closes the range). -/
def unreachableDiag (i : Nat) (lineLen : Nat) (startLine : Option Nat)
    (startInstr : Option Str) : Diag :=
  { severity := .warn, range := mkRng i 0 (lineLen : Int),
    message := str "Unreachable code detected after '" ++
      (match startInstr with | some s => s | none => []) ++
      str "' on line " ++ natStr ((match startLine with
        | some n => n
        | none => 0) + 1) ++ str ".",
    kind := .unreachableCode, suggestion := none }

/-- Diagnostic: bad label-name format (`validation.ts` 96-103). -/
def invalidLabelNameDiag (i : Nat) (rawLine labelName : Str) : Diag :=
  { severity := .error,
    range := mkRng i (strIndexOf rawLine labelName)
      (strIndexOf rawLine labelName + labelName.length),
    message := str "Invalid label name format: " ++ labelName,
    kind := .invalidLabelName labelName, suggestion := none }

/-- Diagnostic: label redefined in this file (`validation.ts` 104-114). -/
def labelRedefinitionDiag (i : Nat) (rawLine labelName : Str)
    (defLine : Nat) : Diag :=
  { severity := .warn,
    range := mkRng i (strIndexOf rawLine labelName)
      (strIndexOf rawLine labelName + labelName.length),
    message := str "Label redefined in this file: " ++ labelName ++
      str ". First defined on line " ++ natStr (defLine + 1),
    kind := .labelRedefinition labelName, suggestion := none }

/-- Diagnostic: bad DB address format (`validation.ts` 123-130). -/
def invalidDbAddressDiag (i : Nat) (rawLine addressArg : Str) : Diag :=
  { severity := .error,
    range := mkRng i (strIndexOf rawLine addressArg)
      (strIndexOf rawLine addressArg + addressArg.length),
    message := str "Invalid DB address format: " ++ addressArg ++
      str ". Expected $number or $[expression].",
    kind := .invalidDbAddress addressArg, suggestion := none }

/-- Diagnostic: bad DB string literal (`validation.ts` 131-138). -/
def invalidDbStringDiag (i : Nat) (rawLine : Str)
    (stringPartIndex : Int) : Diag :=
  { severity := .error,
    range := mkRng i stringPartIndex (rawLine.length : Int),
    message := str "Invalid DB string format. Expected \"string\".",
    kind := .invalidDbString, suggestion := none }

/-- Diagnostic: DB address redefined in this file (`validation.ts` 139-147). -/
def dbRedefinitionDiag (i : Nat) (rawLine addressArg : Str)
    (defLine : Nat) : Diag :=
  { severity := .warn,
    range := mkRng i (strIndexOf rawLine addressArg)
      (strIndexOf rawLine addressArg + addressArg.length),
    message := str "DB address redefined in this file: " ++ addressArg ++
      str ". First defined on line " ++ natStr (defLine + 1),
    kind := .dbRedefinition addressArg, suggestion := none }

/-- Diagnostic: unknown instruction with optional suggestion payload
(`validation.ts` 174-198). -/
def unknownInstructionDiag (i : Nat) (rawLine tok0 : Str)
    (suggestion : Option Str) : Diag :=
  { severity := .error,
    range := mkRng i (strIndexOf rawLine tok0)
      (strIndexOf rawLine tok0 + tok0.length),
    message := str "Unknown instruction: " ++ tok0 ++
      (match suggestion with
       | some s => str ". Did you mean '" ++ s ++ str "'?"
       | none => []),
    kind := .unknownInstruction (toUpperStr tok0), suggestion := suggestion }

/-- Diagnostic: wrong argument count (`validation.ts` 212-224). -/
def arityDiag (i : Nat) (rawLine instruction tok0 : Str) (ci : ArgCount)
    (argCount : Nat) : Diag :=
  let expected := natStr ci.min ++
    (if ci.max ≠ (ci.min : Int) then
      (if ci.max = -1 then str "+" else str "-" ++ intStr ci.max)
     else [])
  { severity := .error,
    range := mkRng i (strIndexOf rawLine tok0) (rawLine.length : Int),
    message := instruction ++ str " expects " ++ expected ++
      str " arguments, but got " ++ natStr argCount ++ str ".",
    kind := .argCountMismatch instruction, suggestion := none }

/-- Diagnostic: POP argument must be a register (`validation.ts` 228-240). -/
def popDiag (i : Nat) (arg : Str) (argStartIndex : Int) : Diag :=
  { severity := .error,
    range := mkRng i argStartIndex (argStartIndex + arg.length),
    message := str "POP expects a register as its argument, but got '" ++
      arg ++ str "'.",
    kind := .popExpectsRegister arg, suggestion := none }

/-- Diagnostic: unknown register (`validation.ts` 249-263). -/
def unknownRegisterDiag (i : Nat) (arg : Str) (argStartIndex : Int) : Diag :=
  { severity := .error,
    range := mkRng i argStartIndex (argStartIndex + arg.length),
    message := str "Unknown register: " ++ arg,
    kind := .unknownRegister arg, suggestion := none }

/-- Diagnostic: malformed `#label` reference (`validation.ts` 266-272). -/
def invalidLabelRefDiag (i : Nat) (arg : Str) (argStartIndex : Int) : Diag :=
  { severity := .error,
    range := mkRng i argStartIndex (argStartIndex + arg.length),
    message := str "Invalid label format: " ++ arg,
    kind := .invalidLabelRef arg, suggestion := none }

/-- Diagnostic: undefined label with optional `#`-prefixed suggestion
(`validation.ts` 275-291). -/
def undefinedLabelDiag (i : Nat) (arg : Str) (argStartIndex : Int)
    (suggestion : Option Str) : Diag :=
  { severity := .error,
    range := mkRng i argStartIndex (argStartIndex + arg.length),
    message := str "Undefined label: " ++ arg ++
      (match suggestion with
       | some s => str ". Did you mean '#" ++ s ++ str "'?"
       | none => []),
    kind := .undefinedLabel arg,
    suggestion := suggestion.map (fun s => '#' :: s) }

/-- Diagnostic: malformed `$` memory address (`validation.ts` 297-303). -/
def invalidMemoryAddressDiag (i : Nat) (arg : Str)
    (argStartIndex : Int) : Diag :=
  { severity := .error,
    range := mkRng i argStartIndex (argStartIndex + arg.length),
    message := str "Invalid memory address format: " ++ arg ++
      str ". Expected $number or $[expression].",
    kind := .invalidMemoryAddress arg, suggestion := none }

/-- Diagnostic: address never defined by a DB (`validation.ts` 304-313). -/
def dbAddressUndefinedDiag (i : Nat) (arg : Str)
    (argStartIndex : Int) : Diag :=
  { severity := .warn,
    range := mkRng i argStartIndex (argStartIndex + arg.length),
    message := str "Memory address " ++ arg ++
      str " not defined by DB in this file or includes.",
    kind := .dbAddressUndefined arg, suggestion := none }

/-- Diagnostic: unknown MNI function (`validation.ts` 337-343).  The range
is computed against the trimmed line, as in the source. -/
def unknownMniDiag (i : Nat) (line funcName : Str) : Diag :=
  { severity := .error,
    range := mkRng i (strIndexOf line funcName)
      (strIndexOf line funcName + funcName.length),
    message := str "Unknown MNI function: " ++ funcName,
    kind := .unknownMniFunction funcName, suggestion := none }

/-- Diagnostic: MNI argument-count mismatch (`validation.ts` 348-354). -/
def mniCountDiag (i : Nat) (line funcName : Str)
    (expected got : Nat) : Diag :=
  { severity := .error, range := mkRng i 0 (line.length : Int),
    message := str "MNI " ++ funcName ++ str " expects " ++
      natStr expected ++ str " arguments, got " ++ natStr got ++ str ".",
    kind := .mniArgCountMismatch funcName, suggestion := none }

/-- Diagnostic: MNI argument-kind mismatch (`validation.ts` 364-371). -/
def mniTypeDiag (i : Nat) (line funcName expectedType actualArg : Str)
    (k : Nat) : Diag :=
  { severity := .error,
    range := mkRng i (strIndexOf line actualArg)
      (strIndexOf line actualArg + actualArg.length),
    message := str "Argument " ++ natStr (k + 1) ++ str " of MNI " ++
      funcName ++ str " expects " ++ expectedType ++ str ", got '" ++
      actualArg ++ str "'.",
    kind := .mniArgTypeMismatch funcName, suggestion := none }

/-- Diagnostic: unused label (`validation.ts` 379-389). -/
def unusedLabelDiag (label : Str) (defLine : Nat) : Diag :=
  { severity := .warn, range := mkRng defLine 0 0,
    message := str "Label '" ++ label ++
      str "' defined but never referenced.",
    kind := .unusedLabel label, suggestion := none }

/-- Diagnostic: unused DB address (`validation.ts` 390-399). -/
def unusedDbDiag (addr : Str) (defLine : Nat) : Diag :=
  { severity := .warn, range := mkRng defLine 0 0,
    message := str "DB address '" ++ addr ++
      str "' defined but never referenced.",
    kind := .unusedDbAddress addr, suggestion := none }

/-- The mutable state of the line loop of `validateTextDocument`. -/
structure VState where
  diags : List Diag
  problems : Nat
  unreachable : Bool
  unreachableStartLine : Option Nat
  unreachableStartInstr : Option Str
  refLabels : List Str
  refDbs : List Str
deriving Repr

/-- `problems++; diagnostics.push(d)`. -/
def addCounted (st : VState) (d : Diag) : VState :=
  { st with diags := st.diags ++ [d], problems := st.problems + 1 }

/-- Push a batch of diagnostics, each preceded by `problems++`. -/
def addCountedList (st : VState) (ds : List Diag) : VState :=
  { st with diags := st.diags ++ ds, problems := st.problems + ds.length }

/-- Push a batch of diagnostics without touching `problems` (the MNI checks
never increment the counter). -/
def addUncountedList (st : VState) (ds : List Diag) : VState :=
  { st with diags := st.diags ++ ds }

/-- Pass-1 diagnostics of one line: label/DB format and same-file
redefinitions (`validation.ts` 85-150).  The chain is an if/else cascade, so
at most one diagnostic is produced. -/
def pass1Diags (uri : Str) (allLabels : List (Str × LabelDef))
    (allDbs : List (Str × DbDef)) (i : Nat) (rawLine : Str)
    (tokensForPass1 : List Str) : List Diag :=
  match tokensForPass1 with
  | [] => []
  | t0 :: rest =>
    let instructionForPass1 := toUpperStr t0
    let instructionStartIndexForPass1 := strIndexOf rawLine t0
    if instructionForPass1 == str "LBL" then
      if tokensForPass1.length == 2 then
        match rest with
        | labelName :: _ =>
          if !(labelNameTest labelName) then
            [invalidLabelNameDiag i rawLine labelName]
          else
            match lookupA allLabels labelName with
            | some d =>
                if d.uri == uri && !(d.line == i) then
                  [labelRedefinitionDiag i rawLine labelName d.line]
                else []
            | none => []
        | [] => []
      else []
    else if instructionForPass1 == str "DB" then
      if 3 ≤ tokensForPass1.length then
        match rest with
        | t1 :: t2 :: _ =>
          let stringPartIndex := strIndexOfFrom rawLine t2
            (instructionStartIndexForPass1 + t0.length + 1 + t1.length)
          let stringLiteral := trimStr (substringFrom rawLine stringPartIndex)
          if !(isValidMemoryAddress t1) then
            [invalidDbAddressDiag i rawLine t1]
          else if !(stringLiteral.head? == some '"' &&
              stringLiteral.getLast? == some '"') then
            [invalidDbStringDiag i rawLine stringPartIndex]
          else
            match lookupA allDbs t1 with
            | some d =>
                if d.uri == uri && !(d.line == i) then
                  [dbRedefinitionDiag i rawLine t1 d.line]
                else []
            | none => []
        | _ => []
      else []
    else []

/-- The DB string-literal splice of pass 2 (`validation.ts` 158-162):
`tokens.splice(2, tokens.length - 2, stringLiteral)`. -/
def spliceDb (rawLine : Str) (tokens : List Str) : List Str :=
  match tokens with
  | t0 :: t1 :: t2 :: _ =>
      if toUpperStr t0 == str "DB" then
        let stringPartIndex := strIndexOfFrom rawLine t2
          (strIndexOf rawLine t0 + t0.length + 1 + t1.length)
        [t0, t1, trimStr (substringFrom rawLine stringPartIndex)]
      else tokens
  | _ => tokens

/-- The pass-2 token list of a raw source line (`validation.ts` 68, 154-162):
trim, strip the comment, split on whitespace, then apply the DB splice. -/
def tokenizePass2 (rawLine : Str) : List Str :=
  spliceDb rawLine (splitWs (stripComment (trimStr rawLine)))

/-- Arity-check diagnostics (`validation.ts` 202-225). -/
def arityDiags (i : Nat) (rawLine instruction tok0 : Str)
    (args : List Str) : List Diag :=
  match lookupA instructionArgCounts instruction with
  | none => []
  | some ci =>
    let argCount := args.length
    let isValidCount :=
      if ci.max == (-1 : Int) then decide (ci.min ≤ argCount)
      else decide (ci.min ≤ argCount) && decide ((argCount : Int) ≤ ci.max)
    if !isValidCount then [arityDiag i rawLine instruction tok0 ci argCount]
    else []

/-- POP operand-kind diagnostics (`validation.ts` 228-240). -/
def popDiags (i : Nat) (rawLine tok0 instruction : Str)
    (args : List Str) : List Diag :=
  if instruction == str "POP" && args.length == 1 then
    match args with
    | arg :: _ =>
        let argStartIndex := strIndexOfFrom rawLine arg
          (strIndexOf rawLine tok0 + tok0.length)
        if !(registerRegexTest arg) then [popDiag i arg argStartIndex]
        else []
    | [] => []
  else []

/-- The per-argument loop (`validation.ts` 244-324): classification
diagnostics plus the referenced-label / referenced-address bookkeeping.
`prev` is `args[j-1]`, used for the column search start. -/
def argChecks (uri : Str) (allLabels : List (Str × LabelDef))
    (allDbs : List (Str × DbDef)) (i : Nat) (rawLine tok0 instruction : Str) :
    List Str → Nat → Option Str → List Str → List Str →
      (List Diag × List Str × List Str)
  | [], _, _, refL, refD => ([], refL, refD)
  | arg :: rest, j, prev, refL, refD =>
    let fromBase : Int :=
      match prev with
      | none => strIndexOf rawLine tok0 + tok0.length
      | some pa => strIndexOf rawLine pa + pa.length
    let argStartIndex := strIndexOfFrom rawLine arg fromBase
    let ds : List Diag :=
      if registerRegexTest arg && !(knownRegistersList.contains arg) then
        [unknownRegisterDiag i arg argStartIndex]
      else if arg.head? == some '#' then
        if !(labelRefTest arg) then [invalidLabelRefDiag i arg argStartIndex]
        else
          let labelName := arg.drop 1
          if jumpInstructionsList.contains instruction &&
              !(hasA allLabels labelName) then
            [undefinedLabelDiag i arg argStartIndex
              (findClosestMatch labelName (allLabels.map Prod.fst) 2)]
          else []
      else if arg.head? == some '$' then
        if !(isValidMemoryAddress arg) then
          [invalidMemoryAddressDiag i arg argStartIndex]
        else if !(hasA allDbs arg) then
          if instruction == str "OUT" && j == 1 then
            [dbAddressUndefinedDiag i arg argStartIndex]
          else []
        else []
      else []
    let refL2 :=
      if arg.head? == some '#' && labelRefTest arg then
        addRef refL (arg.drop 1)
      else refL
    let refD2 :=
      if arg.head? == some '$' && isValidMemoryAddress arg then addRef refD arg
      else refD
    let res := argChecks uri allLabels allDbs i rawLine tok0 instruction rest
      (j + 1) (some arg) refL2 refD2
    (ds ++ res.1, res.2.1, res.2.2)

/-- The MNI per-argument kind checks (`validation.ts` 357-373). -/
def mniTypeDiags (i : Nat) (line funcName : Str) :
    List Str → List Str → Nat → List Diag
  | expectedType :: specRest, actualArg :: argRest, k =>
      let typeOk :=
        (expectedType == str "register" && registerRegexTest actualArg) ||
        (expectedType == str "memory" && isValidMemoryAddress actualArg)
      (if !typeOk then [mniTypeDiag i line funcName expectedType actualArg k]
       else []) ++ mniTypeDiags i line funcName specRest argRest (k + 1)
  | _, _, _ => []

/-- The MNI checks (`validation.ts` 334-375); none of these pushes
increments `problems`. -/
def mniDiags (mni : List (Str × List Str)) (i : Nat)
    (line instruction : Str) (args : List Str) : List Diag :=
  if instruction == str "MNI" && 0 < args.length then
    match args with
    | [] => []
    | funcName :: mniArgs =>
      match lookupA mni funcName with
      | none => [unknownMniDiag i line funcName]
      | some spec =>
        let expected := spec.length
        let got := args.length - 1
        if !(got == expected) then [mniCountDiag i line funcName expected got]
        else mniTypeDiags i line funcName spec mniArgs 0
  else []

/-- The skip test of the line loop (`validation.ts` 69-71): blank, comment,
or `#include` lines are not analysed. -/
def lineSkipped (rawLine : Str) : Bool :=
  let line := trimStr rawLine
  line.isEmpty || line.head? == some ';' || (matchInclude line).isSome

/-- The body of the `for` loop of `validateTextDocument` for one line
(`validation.ts` 68-375), phase by phase in source order. -/
def validateLine (uri : Str) (allLabels : List (Str × LabelDef))
    (allDbs : List (Str × DbDef)) (mni : List (Str × List Str)) (i : Nat)
    (rawLine : Str) (st : VState) : VState :=
  let line := trimStr rawLine
  if line.isEmpty || line.head? == some ';' || (matchInclude line).isSome then
    st
  else
    -- unreachable-code warning (emitted before anything else on the line)
    let st1 :=
      if st.unreachable && !line.isEmpty && !(line.head? == some ';') then
        addCounted st (unreachableDiag i line.length st.unreachableStartLine
          st.unreachableStartInstr)
      else st
    let tokensForPass1 := splitWs (stripComment line)
    match tokensForPass1 with
    | [] => st1
    | _ :: _ =>
      let st2 := addCountedList st1
        (pass1Diags uri allLabels allDbs i rawLine tokensForPass1)
      -- pass 2 recomputes the same token list, then applies the DB splice
      match spliceDb rawLine tokensForPass1 with
      | [] => st2
      | tok0 :: args =>
        let instruction := toUpperStr tok0
        -- a label definition clears the unreachable flag
        let st3 :=
          if instruction == str "LBL" then
            { st2 with
              unreachable := false
              unreachableStartLine := none
              unreachableStartInstr := none }
          else st2
        if !(knownInstructionsList.contains instruction) then
          addCounted st3 (unknownInstructionDiag i rawLine tok0
            (findClosestMatch tok0 knownInstructionsList 2))
        else
          let st4 := addCountedList st3
            (arityDiags i rawLine instruction tok0 args)
          let st5 := addCountedList st4
            (popDiags i rawLine tok0 instruction args)
          let res := argChecks uri allLabels allDbs i rawLine tok0 instruction
            args 0 none st5.refLabels st5.refDbs
          let st6 :=
            { addCountedList st5 res.1 with
              refLabels := res.2.1
              refDbs := res.2.2 }
          let st7 :=
            if [str "HLT", str "JMP", str "EXIT"].contains instruction then
              { st6 with
                unreachable := true
                unreachableStartLine := some i
                unreachableStartInstr := some instruction }
            else st6
          addUncountedList st7 (mniDiags mni i line instruction args)

/-- The `for` loop (`validation.ts` 67): the guard
`problems < maxNumberOfProblems` is re-checked before every iteration and
ends the loop when it fails. -/
def validateLoop (uri : Str) (allLabels : List (Str × LabelDef))
    (allDbs : List (Str × DbDef)) (mni : List (Str × List Str))
    (maxProblems : Nat) : List (Nat × Str) → VState → VState
  | [], st => st
  | (i, rawLine) :: rest, st =>
    if st.problems < maxProblems then
      validateLoop uri allLabels allDbs mni maxProblems rest
        (validateLine uri allLabels allDbs mni i rawLine st)
    else st

/-- The end-of-pass unused-label sweep (`validation.ts` 379-389): the
lower-case label `main` is excluded from the check. -/
def unusedLabelDiags (allLabels : List (Str × LabelDef))
    (refLabels : List Str) : List Diag :=
  (allLabels.filter (fun p =>
    !(p.1 == str "main") && !(refLabels.contains p.1))).map
    (fun p => unusedLabelDiag p.1 p.2.line)

/-- The end-of-pass unused-DB-address sweep (`validation.ts` 390-399). -/
def unusedDbDiags (allDbs : List (Str × DbDef))
    (refDbs : List Str) : List Diag :=
  (allDbs.filter (fun p => !(refDbs.contains p.1))).map
    (fun p => unusedDbDiag p.1 p.2.line)

/-- Does a diagnostic's message contain `pat`? (JS `message.includes`). -/
def msgIncludes (d : Diag) (pat : Str) : Bool :=
  (strIndexOfFromNat d.message pat 0).isSome

/-- The final filter (`validation.ts` 402-409).  Both branches of the source
return `true`, so the filter keeps every diagnostic; it is reproduced
verbatim rather than simplified away. -/
def keepDiag (d : Diag) : Bool :=
  if msgIncludes d (str "Include file not found") ||
      msgIncludes d (str "Circular include detected") ||
      msgIncludes d (str "Failed to resolve include path") then true
  else true

/-- The loop state on entry (`validation.ts` 42-58): the diagnostics list and
the `problems` counter are both seeded with the resolver's include errors. -/
def initialVState (parsedInfo : ParsedDocInfo) : VState :=
  { diags := parsedInfo.includeErrors
    problems := parsedInfo.includeErrors.length
    unreachable := false
    unreachableStartLine := none
    unreachableStartInstr := none
    refLabels := []
    refDbs := [] }

/-- Everything `validateTextDocument` accumulates before the final filter
and cap: the seeded state, the line loop, then the two unused-symbol
sweeps appended. -/
def validateAllDiags (uri text : Str) (maxProblems : Nat)
    (parsedInfo : ParsedDocInfo) (mni : List (Str × List Str)) :
    List Diag × VState :=
  let final := validateLoop uri parsedInfo.labels parsedInfo.dbAddresses mni
    maxProblems (splitLines text).enum (initialVState parsedInfo)
  (final.diags ++ unusedLabelDiags parsedInfo.labels final.refLabels ++
    unusedDbDiags parsedInfo.dbAddresses final.refDbs, final)

/-- `validateTextDocument` (`validation.ts` 6-414): the accumulated
diagnostics, filtered, and capped by
`finalDiagnostics.slice(0, settings.maxNumberOfProblems)`. -/
def validateTextDocument (uri text : Str) (maxProblems : Nat)
    (parsedInfo : ParsedDocInfo) (mni : List (Str × List Str)) : List Diag :=
  (((validateAllDiags uri text maxProblems parsedInfo mni).1).filter
    keepDiag).take maxProblems

/-! ## Concrete claim scenarios and abstractions used by the theorems -/

/-- The two-document include cycle of claim C1: `/w/a.masm` includes
`b.masm`, which includes `a.masm` back. -/
def includeCycleFs : FileSys :=
  [(str "/w/a.masm", str "#include \"b.masm\""),
   (str "/w/b.masm", str "#include \"a.masm\"")]

/-- The starting document of the include cycle. -/
def includeCycleA : Str := str "/w/a.masm"


/-- The document of claim C7, as written in the claim: upper-case `MAIN`. -/
def unusedDocUpper : Str := str "LBL MAIN\nLBL OTHER"

/-- The C7 document with the entry label spelled the way the code expects. -/
def unusedDocLower : Str := str "LBL main\nLBL OTHER"


/-- Loop invariant of the `findClosestMatch` scan over a processed prefix
`p`: with no best match yet, the running minimum is still `maxD + 1` and
every processed candidate is farther than `maxD`; with best match `b`, the
running minimum is `b`'s distance, it is within `maxD`, it is minimal over
`p`, and every candidate processed before `b` is strictly farther. -/
def FInv (input : Str) (maxD : Nat) (p : List Str) :
    Option Str → Nat → Prop
  | none, minD => minD = maxD + 1 ∧ ∀ o ∈ p, maxD < distCI input o
  | some b, minD =>
      minD = distCI input b ∧ distCI input b ≤ maxD ∧
      (∀ o ∈ p, distCI input b ≤ distCI input o) ∧
      ∃ pre suf, p = pre ++ b :: suf ∧
        ∀ o ∈ pre, distCI input b < distCI input o


/-- Is `d` an unreachable-code warning anchored on line `j`? -/
def isUnreachAt (j : Nat) (d : Diag) : Bool :=
  d.kind == DiagKind.unreachableCode && d.range.start.line == j

/-- The evolution of the `unreachable` flag across one line, extracted from
the control flow of `validateLine`: skipped lines and token-less lines leave
it alone; an `LBL` line clears it; a known `HLT`/`JMP`/`EXIT` instruction
sets it; every other line leaves it as is (an unknown instruction aborts the
line after the `LBL` reset and before the terminator marking). -/
def flagStep (rawLine : Str) (b : Bool) : Bool :=
  let line := trimStr rawLine
  if line.isEmpty || line.head? == some ';' || (matchInclude line).isSome then
    b
  else
    match splitWs (stripComment line) with
    | [] => b
    | _ :: _ =>
      match spliceDb rawLine (splitWs (stripComment line)) with
      | [] => b
      | tok0 :: _ =>
        let instruction := toUpperStr tok0
        let b2 := if instruction == str "LBL" then false else b
        if !(knownInstructionsList.contains instruction) then b2
        else if [str "HLT", str "JMP", str "EXIT"].contains instruction then
          true
        else b2

/-- Does the flag automaton predict an unreachable-code warning on absolute
line `j`, when the lines `lns` carry absolute indices `n, n+1, ...` and the
flag currently holds `b`?  A warning is predicted exactly on a non-skipped
line reached with the flag set. -/
def warnExpectedFrom (n : Nat) (b : Bool) (lns : List Str) (j : Nat) : Bool :=
  match lns with
  | [] => false
  | l :: rest =>
      if j = n then !(lineSkipped l) && b
      else warnExpectedFrom (n + 1) (flagStep l b) rest j

/-- The line loop without the problem cap, for comparison with
`validateLoop`. -/
def validateLineFold (uri : Str) (allLabels : List (Str × LabelDef))
    (allDbs : List (Str × DbDef)) (mni : List (Str × List Str))
    (lns : List (Nat × Str)) (st : VState) : VState :=
  lns.foldl (fun s p => validateLine uri allLabels allDbs mni p.1 p.2 s) st

/-! ## Claim theorems -/

/-- Claim C1: resolving document A of the cycle A -> B -> A, starting with an
empty visited set (and empty cache), terminates — it succeeds at any
recursion budget of at least 3, so the depth the recursion actually needs is
bounded by the cycle check, not the budget — and the resolved info carries
exactly one include-error diagnostic, whose kind and message identify a
circular include. -/
theorem circular_include_one_error (fuel : Nat) (hfuel : 3 ≤ fuel) :
    ((parseDocumentRecursive includeCycleFs none fuel includeCycleA []
        none []).map
      (fun pr => (pr.1.includeErrors.map Diag.kind,
                  pr.1.includeErrors.map Diag.message)))
    = some ([DiagKind.circularInclude includeCycleA],
            [str "Circular include detected: /w/a.masm"]) := by
  obtain ⟨k, rfl⟩ : ∃ k, fuel = k + 3 := ⟨fuel - 3, by omega⟩
  rfl

/-- Witness for C1: the theorem applied at the concrete budget 3. -/
theorem circular_include_one_error_witness :
    ((parseDocumentRecursive includeCycleFs none 3 includeCycleA []
        none []).map
      (fun pr => (pr.1.includeErrors.map Diag.kind,
                  pr.1.includeErrors.map Diag.message)))
    = some ([DiagKind.circularInclude includeCycleA],
            [str "Circular include detected: /w/a.masm"]) :=
  circular_include_one_error 3 (by decide)

/-- Claim C2: for every document text, parsed info, MNI table and configured
`maxNumberOfProblems`, the diagnostic list returned by
`validateTextDocument` has length at most `maxNumberOfProblems` (the final
`slice(0, maxNumberOfProblems)` enforces the cap). -/
theorem validate_respects_max_problems (uri text : Str) (maxProblems : Nat)
    (parsedInfo : ParsedDocInfo) (mni : List (Str × List Str)) :
    (validateTextDocument uri text maxProblems parsedInfo mni).length ≤
      maxProblems := by
  unfold validateTextDocument
  rw [List.length_take]
  exact Nat.min_le_left _ _

/-- Claim C3: the five address-validator test vectors of the specification. -/
theorem address_validator_vectors :
    isValidMemoryAddress (str "$[RBP-4]") = true ∧
    isValidMemoryAddress (str "$[RAX*9]") = false ∧
    isValidMemoryAddress (str "$[]") = false ∧
    isValidMemoryAddress (str "$[+4]") = false ∧
    isValidMemoryAddress (str "$123") = true := by
  decide

/-- Claim C4 (code bug): the source claims to reject consecutive operators
(`// Operators must be followed by a value`, and the repository test file
labels `$[RBP++4]` "Invalid: double operators"), but `isValidMemoryAddress`
only rejects an operator in last position: `"RBP++4".split(/([+\-])/)`
filters out the empty segment between the two `+`, so every remaining part
passes and the validator accepts `$[RBP++4]`. -/
theorem address_validator_accepts_consecutive_operators :
    isValidMemoryAddress (str "$[RBP++4]") = true ∧
    splitOps (str "RBP++4") = [str "RBP", str "+", str "+", str "4"] := by
  decide

/-- Claim C5 (code bug): `registerRegex` has no `i` flag, so register
matching inside bracket expressions is case-sensitive: `$[rbp]` is rejected
while `$[RBP]` is accepted, although the code's own comment lists `rbp, rax`
as valid register patterns. -/
theorem address_validator_case_sensitive :
    isValidMemoryAddress (str "$[rbp]") = false ∧
    isValidMemoryAddress (str "$[RBP]") = true ∧
    registerRegexTest (str "rbp") = false := by
  decide

/-- Counterexample to claim C7 as stated: for `LBL MAIN` / `LBL OTHER`
(both unreferenced), the sweep emits two unused-label warnings — one of them
for `MAIN` — because the unused check skips only the lower-case name
`main`. -/
theorem unused_sweep_warns_upper_main :
    ((parseDocumentRecursive [(str "file:a", unusedDocUpper)] none 1
        (str "file:a") [] none []).map
      (fun pr => (validateTextDocument (str "file:a") unusedDocUpper 100
        pr.1 []).map Diag.kind))
    = some [DiagKind.unusedLabel (str "MAIN"),
            DiagKind.unusedLabel (str "OTHER")] := by
  decide

/-- Claim C7 as amended: the conventional entry-point label skipped by the
unused check is the lower-case name `main`.  For a document defining `main`
(unreferenced) and `OTHER` (unreferenced), resolving and validating it emits
exactly one unused-symbol warning, for `OTHER`, and none for `main`. -/
theorem unused_sweep_skips_lower_main :
    ((parseDocumentRecursive [(str "file:a", unusedDocLower)] none 1
        (str "file:a") [] none []).map
      (fun pr => (validateTextDocument (str "file:a") unusedDocLower 100
        pr.1 []).map Diag.kind))
    = some [DiagKind.unusedLabel (str "OTHER")] := by
  decide

/-- Claim C8: tokenizing `OUT 1 $[RSP+4] ; comment` yields exactly the three
tokens `OUT`, `1`, `$[RSP+4]` — the comment is stripped before the
whitespace split. -/
theorem tokenize_strips_comment :
    tokenizePass2 (str "OUT 1 $[RSP+4] ; comment")
      = [str "OUT", str "1", str "$[RSP+4]"] ∧
    (tokenizePass2 (str "OUT 1 $[RSP+4] ; comment")).length = 3 := by
  decide

/-! ## Correctness of `findClosestMatch` (claim C10) -/

theorem fcmStep_inv (input : Str) (maxD : Nat) (p : List Str)
    (acc : Option Str × Nat) (o : Str)
    (h : FInv input maxD p acc.1 acc.2) :
    FInv input maxD (p ++ [o]) (fcmStep input maxD acc o).1
      (fcmStep input maxD acc o).2 := by
  obtain ⟨best, minD⟩ := acc
  simp only [fcmStep, Bool.and_eq_true, decide_eq_true_eq]
  have hdist : levenshteinDistance (toLowerStr input) (toLowerStr o)
      = distCI input o := rfl
  rw [hdist]
  split_ifs with hc
  · -- the candidate is adopted
    obtain ⟨h1, h2⟩ := hc
    refine ⟨rfl, h2, ?_, p, [], rfl, ?_⟩
    · intro x hx
      rcases List.mem_append.mp hx with hx | hx
      · cases best with
        | none =>
            obtain ⟨-, hall⟩ := h
            exact le_of_lt (lt_of_le_of_lt h2 (hall x hx))
        | some b =>
            obtain ⟨hmin, -, hall, -⟩ := h
            exact le_of_lt (lt_of_lt_of_le (hmin ▸ h1) (hall x hx))
      · simp at hx
        exact hx ▸ le_refl _
    · intro x hx
      cases best with
      | none =>
          obtain ⟨-, hall⟩ := h
          exact lt_of_le_of_lt h2 (hall x hx)
      | some b =>
          obtain ⟨hmin, -, hall, -⟩ := h
          exact lt_of_lt_of_le (hmin ▸ h1) (hall x hx)
  · -- the accumulator is kept
    cases best with
    | none =>
        obtain ⟨hmin, hall⟩ := h
        refine ⟨hmin, ?_⟩
        intro x hx
        rcases List.mem_append.mp hx with hx | hx
        · exact hall x hx
        · simp at hx
          subst hx
          by_contra hle
          exact hc ⟨by omega, by omega⟩
    | some b =>
        obtain ⟨hmin, hb, hall, pre, suf, hp, hpre⟩ := h
        have hbo : distCI input b ≤ distCI input o := by
          by_contra hgt
          exact hc ⟨by omega, by omega⟩
        refine ⟨hmin, hb, ?_, pre, suf ++ [o], ?_, hpre⟩
        · intro x hx
          rcases List.mem_append.mp hx with hx | hx
          · exact hall x hx
          · simp at hx
            exact hx ▸ hbo
        · rw [hp]
          simp

theorem fcmFold_inv (input : Str) (maxD : Nat) :
    ∀ (rest p : List Str) (acc : Option Str × Nat),
      FInv input maxD p acc.1 acc.2 →
      FInv input maxD (p ++ rest)
        (rest.foldl (fcmStep input maxD) acc).1
        (rest.foldl (fcmStep input maxD) acc).2
  | [], p, acc, h => by simpa using h
  | o :: rest, p, acc, h => by
      have h2 := fcmFold_inv input maxD rest (p ++ [o])
        (fcmStep input maxD acc o) (fcmStep_inv input maxD p acc o h)
      simpa using h2

/-- Claim C10: `findClosestMatch` returns `none` exactly when no candidate
is within `maxDistance`; otherwise it returns a candidate of minimal
case-insensitive Levenshtein distance, within `maxDistance`, and the first
such candidate in insertion order (every earlier candidate is strictly
farther).  In particular `closestMatch("MOOV", {MOV, ADD, SUB}, 2) = MOV`
and `closestMatch("ZZZZZ", {MOV}, 2) = none`. -/
theorem closest_match_spec (input : Str) (opts : List Str) (maxD : Nat) :
    (findClosestMatch input opts maxD = none →
      ∀ o ∈ opts, maxD < distCI input o) ∧
    (∀ b, findClosestMatch input opts maxD = some b →
      b ∈ opts ∧ distCI input b ≤ maxD ∧
      (∀ o ∈ opts, distCI input b ≤ distCI input o) ∧
      ∃ pre suf, opts = pre ++ b :: suf ∧
        ∀ o ∈ pre, distCI input b < distCI input o) ∧
    findClosestMatch (str "MOOV") [str "MOV", str "ADD", str "SUB"] 2
      = some (str "MOV") ∧
    findClosestMatch (str "ZZZZZ") [str "MOV"] 2 = none := by
  have base : FInv input maxD [] (none : Option Str) (maxD + 1) :=
    ⟨rfl, fun o ho => absurd ho (List.not_mem_nil o)⟩
  have hfold := fcmFold_inv input maxD opts []
    ((none : Option Str), maxD + 1) base
  rw [List.nil_append] at hfold
  refine ⟨?_, ?_, by decide, by decide⟩
  · intro hnone
    unfold findClosestMatch at hnone
    rw [hnone] at hfold
    exact hfold.2
  · intro b hsome
    unfold findClosestMatch at hsome
    rw [hsome] at hfold
    obtain ⟨-, hb, hall, pre, suf, hp, hpre⟩ := hfold
    exact ⟨hp ▸ List.mem_append.mpr (Or.inr (List.mem_cons_self b suf)),
      hb, hall, pre, suf, hp, hpre⟩

/-- Witness for C10: the theorem applied to the `MOOV` vector shows `MOV` is
a minimal-distance candidate within distance 2. -/
theorem closest_match_spec_witness :
    (str "MOV") ∈ [str "MOV", str "ADD", str "SUB"] ∧
    distCI (str "MOOV") (str "MOV") ≤ 2 := by
  have h := (closest_match_spec (str "MOOV")
    [str "MOV", str "ADD", str "SUB"] 2).2.1 (str "MOV") (by decide)
  exact ⟨h.1, h.2.1⟩

/-! ## First-definition-wins invariants of the resolver (claim C9) -/

theorem lookupA_append_of_some {α : Type} :
    ∀ (m : List (Str × α)) (l : List (Str × α)) (n : Str) (v : α),
      lookupA m n = some v → lookupA (m ++ l) n = some v
  | [], l, n, v, h => by simp [lookupA] at h
  | kv :: m, l, n, v, h => by
      simp only [lookupA, List.cons_append] at h ⊢
      split at h
      · rw [if_pos ‹_›]
        exact h
      · rw [if_neg ‹_›]
        exact lookupA_append_of_some m l n v h

theorem lookupA_append_of_none {α : Type} :
    ∀ (m : List (Str × α)) (l : List (Str × α)) (n : Str),
      lookupA m n = none → lookupA (m ++ l) n = lookupA l n
  | [], l, n, _ => by simp [lookupA]
  | kv :: m, l, n, h => by
      simp only [lookupA, List.cons_append] at h ⊢
      split at h
      · exact absurd h (by simp)
      · rw [if_neg ‹_›]
        exact lookupA_append_of_none m l n h

theorem setIfAbsent_preserves {α : Type} (m : List (Str × α)) (k : Str)
    (w : α) (n : Str) (v : α) (h : lookupA m n = some v) :
    lookupA (setIfAbsent m k w) n = some v := by
  unfold setIfAbsent
  split
  · exact h
  · exact lookupA_append_of_some m [(k, w)] n v h

theorem mergeInto_preserves {α : Type} :
    ∀ (inc cur : List (Str × α)) (n : Str) (v : α),
      lookupA cur n = some v → lookupA (mergeInto cur inc) n = some v
  | [], _, _, _, h => h
  | kv :: inc, cur, n, v, h =>
      mergeInto_preserves inc (setIfAbsent cur kv.1 kv.2) n v
        (setIfAbsent_preserves cur kv.1 kv.2 n v h)

theorem scanLines_preserves_labels
    (parseF : Str → List Str → Option OriginRef → Cache →
      Option (ParsedDocInfo × Cache))
    (fs : FileSys) (cfg : Option Str) (docUri dir : Str)
    (visited : List Str) :
    ∀ (lns : List (Nat × Str)) (st st' : ScanState) (n : Str) (v : LabelDef),
      scanLines parseF fs cfg docUri dir visited lns st = some st' →
      lookupA st.labels n = some v → lookupA st'.labels n = some v := by
  intro lns
  induction lns with
  | nil =>
      intro st st' n v hscan h
      simp only [scanLines, Option.some.injEq] at hscan
      exact hscan ▸ h
  | cons p rest ih =>
      intro st st' n v hscan h
      obtain ⟨i, rawLine⟩ := p
      simp only [scanLines] at hscan
      split at hscan
      · exact ih st st' n v hscan h
      · split at hscan
        · -- include line
          split at hscan
          · split at hscan
            · exact absurd hscan (by simp)
            · exact ih _ st' n v hscan
                (mergeInto_preserves _ st.labels n v h)
          · exact ih _ st' n v hscan h
        · -- LBL / DB line
          split at hscan
          · exact ih st st' n v hscan h
          · exact ih st st' n v hscan h
          · split at hscan
            · exact ih _ st' n v hscan
                (setIfAbsent_preserves st.labels _ _ n v h)
            · split at hscan
              · split at hscan
                · exact ih st st' n v hscan h
                · split at hscan
                  · exact ih _ st' n v hscan h
                  · exact ih st st' n v hscan h
              · exact ih st st' n v hscan h

theorem scanLines_preserves_dbAddresses
    (parseF : Str → List Str → Option OriginRef → Cache →
      Option (ParsedDocInfo × Cache))
    (fs : FileSys) (cfg : Option Str) (docUri dir : Str)
    (visited : List Str) :
    ∀ (lns : List (Nat × Str)) (st st' : ScanState) (n : Str) (v : DbDef),
      scanLines parseF fs cfg docUri dir visited lns st = some st' →
      lookupA st.dbAddresses n = some v →
      lookupA st'.dbAddresses n = some v := by
  intro lns
  induction lns with
  | nil =>
      intro st st' n v hscan h
      simp only [scanLines, Option.some.injEq] at hscan
      exact hscan ▸ h
  | cons p rest ih =>
      intro st st' n v hscan h
      obtain ⟨i, rawLine⟩ := p
      simp only [scanLines] at hscan
      split at hscan
      · exact ih st st' n v hscan h
      · split at hscan
        · split at hscan
          · split at hscan
            · exact absurd hscan (by simp)
            · exact ih _ st' n v hscan
                (mergeInto_preserves _ st.dbAddresses n v h)
          · exact ih _ st' n v hscan h
        · split at hscan
          · exact ih st st' n v hscan h
          · exact ih st st' n v hscan h
          · split at hscan
            · exact ih _ st' n v hscan h
            · split at hscan
              · split at hscan
                · exact ih st st' n v hscan h
                · split at hscan
                  · exact ih _ st' n v hscan
                      (lookupA_append_of_some st.dbAddresses _ n v h)
                  · exact ih st st' n v hscan h
              · exact ih st st' n v hscan h

/-- Claim C9: (i)/(ii) once a label or DB-address binding is present in the
scan state, no later line of the same document — label line, DB line, or
include merge — ever changes it; (iii) merging an included file's symbols
never replaces an existing binding; (iv) the first `LBL n` occurrence on an
unclaimed name records exactly the current line and owning document. -/
theorem first_definition_wins :
    (∀ (parseF : Str → List Str → Option OriginRef → Cache →
        Option (ParsedDocInfo × Cache))
       (fs : FileSys) (cfg : Option Str) (docUri dir : Str)
       (visited : List Str) (lns : List (Nat × Str)) (st st' : ScanState)
       (n : Str) (v : LabelDef),
       scanLines parseF fs cfg docUri dir visited lns st = some st' →
       lookupA st.labels n = some v → lookupA st'.labels n = some v) ∧
    (∀ (parseF : Str → List Str → Option OriginRef → Cache →
        Option (ParsedDocInfo × Cache))
       (fs : FileSys) (cfg : Option Str) (docUri dir : Str)
       (visited : List Str) (lns : List (Nat × Str)) (st st' : ScanState)
       (n : Str) (v : DbDef),
       scanLines parseF fs cfg docUri dir visited lns st = some st' →
       lookupA st.dbAddresses n = some v →
       lookupA st'.dbAddresses n = some v) ∧
    (∀ {α : Type} (inc cur : List (Str × α)) (n : Str) (v : α),
       lookupA cur n = some v → lookupA (mergeInto cur inc) n = some v) ∧
    (∀ (parseF : Str → List Str → Option OriginRef → Cache →
        Option (ParsedDocInfo × Cache))
       (fs : FileSys) (cfg : Option Str) (docUri dir : Str)
       (visited : List Str) (i : Nat) (raw : Str) (st st' : ScanState)
       (n t : Str) (rest2 : List Str),
       (trimStr raw).isEmpty = false →
       ((trimStr raw).head? == some ';') = false →
       matchInclude (trimStr raw) = none →
       splitWs (trimStr raw) = t :: n :: rest2 →
       toUpperStr t = str "LBL" →
       lookupA st.labels n = none →
       scanLines parseF fs cfg docUri dir visited [(i, raw)] st = some st' →
       lookupA st'.labels n = some ⟨i, docUri⟩) := by
  refine ⟨scanLines_preserves_labels, scanLines_preserves_dbAddresses,
    fun inc cur n v h => mergeInto_preserves inc cur n v h, ?_⟩
  intro parseF fs cfg docUri dir visited i raw st st' n t rest2
    hne hnc hni htok hlbl habs hscan
  simp only [scanLines, hne, hnc, hni, htok, hlbl, Bool.false_or,
    Bool.or_self, Bool.false_eq_true, if_false] at hscan
  rw [if_pos (by decide)] at hscan
  rw [Option.some_inj] at hscan
  rw [← hscan]
  show lookupA (setIfAbsent st.labels n ⟨i, docUri⟩) n = some ⟨i, docUri⟩
  unfold setIfAbsent
  rw [if_neg (by simp [hasA, habs])]
  rw [lookupA_append_of_none st.labels _ n habs]
  simp [lookupA]

/-- Witness for C9, applying each conjunct at a tiny concrete input: an
existing binding for `x` survives a same-document `LBL x` line, a merge with
a conflicting included binding keeps the first definition, and a fresh
`LBL y` line records the current line and document. -/
theorem first_definition_wins_witness :
    lookupA [(str "x", LabelDef.mk 0 (str "u"))] (str "x")
      = some (LabelDef.mk 0 (str "u")) ∧
    lookupA (mergeInto [(str "x", LabelDef.mk 0 (str "u"))]
      [(str "x", LabelDef.mk 5 (str "w"))]) (str "x")
      = some (LabelDef.mk 0 (str "u")) := by
  constructor
  · exact first_definition_wins.1 (fun _ _ _ c => some (⟨[], [], []⟩, c))
      [] none (str "u") (str ".") [] [(3, str "LBL x")]
      ⟨[(str "x", LabelDef.mk 0 (str "u"))], [], [], []⟩
      ⟨[(str "x", LabelDef.mk 0 (str "u"))], [], [], []⟩
      (str "x") (LabelDef.mk 0 (str "u")) (by decide) (by decide)
  · exact first_definition_wins.2.2.1
      [(str "x", LabelDef.mk 5 (str "w"))]
      [(str "x", LabelDef.mk 0 (str "u"))] (str "x") (LabelDef.mk 0 (str "u"))
      (by decide)


/-! ## Unreachable-code warnings (claim C6) -/

theorem countP_eq_zero_of_kinds (j : Nat) (l : List Diag)
    (h : ∀ d ∈ l, d.kind ≠ DiagKind.unreachableCode) :
    l.countP (isUnreachAt j) = 0 := by
  refine List.countP_eq_zero.mpr ?_
  intro d hd
  simp only [isUnreachAt, Bool.and_eq_true, beq_iff_eq]
  rintro ⟨hk, -⟩
  exact h d hd hk

theorem pass1Diags_kinds (uri : Str) (allLabels : List (Str × LabelDef))
    (allDbs : List (Str × DbDef)) (i : Nat) (rawLine : Str)
    (toks : List Str) :
    ∀ d ∈ pass1Diags uri allLabels allDbs i rawLine toks,
      d.kind ≠ DiagKind.unreachableCode := by
  intro d hd
  simp only [pass1Diags] at hd
  repeat' split at hd
  all_goals simp only [List.mem_singleton, List.not_mem_nil] at hd
  all_goals first
    | exact hd.elim
    | (subst hd
       simp [invalidLabelNameDiag, labelRedefinitionDiag, invalidDbAddressDiag,
         invalidDbStringDiag, dbRedefinitionDiag])

theorem arityDiags_kinds (i : Nat) (rawLine instruction tok0 : Str)
    (args : List Str) :
    ∀ d ∈ arityDiags i rawLine instruction tok0 args,
      d.kind ≠ DiagKind.unreachableCode := by
  intro d hd
  simp only [arityDiags] at hd
  repeat' split at hd
  all_goals simp only [List.mem_singleton, List.not_mem_nil] at hd
  all_goals first
    | exact hd.elim
    | (subst hd; simp [arityDiag])

theorem popDiags_kinds (i : Nat) (rawLine tok0 instruction : Str)
    (args : List Str) :
    ∀ d ∈ popDiags i rawLine tok0 instruction args,
      d.kind ≠ DiagKind.unreachableCode := by
  intro d hd
  simp only [popDiags] at hd
  repeat' split at hd
  all_goals simp only [List.mem_singleton, List.not_mem_nil] at hd
  all_goals first
    | exact hd.elim
    | (subst hd; simp [popDiag])

theorem argChecks_kinds (uri : Str) (allLabels : List (Str × LabelDef))
    (allDbs : List (Str × DbDef)) (i : Nat)
    (rawLine tok0 instruction : Str) :
    ∀ (args : List Str) (k : Nat) (prev : Option Str) (refL refD : List Str),
      ∀ d ∈ (argChecks uri allLabels allDbs i rawLine tok0 instruction args k
        prev refL refD).1, d.kind ≠ DiagKind.unreachableCode := by
  intro args
  induction args with
  | nil => intro k prev refL refD d hd; exact absurd hd (List.not_mem_nil d)
  | cons arg rest ih =>
      intro k prev refL refD d hd
      simp only [argChecks] at hd
      rw [List.mem_append] at hd
      rcases hd with hd | hd
      · repeat' split at hd
        all_goals simp only [List.mem_singleton, List.not_mem_nil] at hd
        all_goals first
          | exact hd.elim
          | (subst hd
             simp [unknownRegisterDiag, invalidLabelRefDiag,
               undefinedLabelDiag, invalidMemoryAddressDiag,
               dbAddressUndefinedDiag])
      · exact ih _ _ _ _ d hd

theorem mniTypeDiags_kinds (i : Nat) (line funcName : Str) :
    ∀ (spec args : List Str) (k : Nat),
      ∀ d ∈ mniTypeDiags i line funcName spec args k,
        d.kind ≠ DiagKind.unreachableCode := by
  intro spec
  induction spec with
  | nil =>
      intro args k d hd
      cases args <;> exact absurd hd (List.not_mem_nil d)
  | cons e srest ih =>
      intro args k d hd
      cases args with
      | nil => exact absurd hd (List.not_mem_nil d)
      | cons a arest =>
          simp only [mniTypeDiags] at hd
          rw [List.mem_append] at hd
          rcases hd with hd | hd
          · split at hd
            · simp only [List.mem_singleton] at hd
              subst hd
              simp [mniTypeDiag]
            · exact absurd hd (List.not_mem_nil d)
          · exact ih _ _ d hd

theorem mniDiags_kinds (mni : List (Str × List Str)) (i : Nat)
    (line instruction : Str) (args : List Str) :
    ∀ d ∈ mniDiags mni i line instruction args,
      d.kind ≠ DiagKind.unreachableCode := by
  intro d hd
  simp only [mniDiags] at hd
  repeat' split at hd
  all_goals first
    | exact absurd hd (List.not_mem_nil d)
    | (simp only [List.mem_singleton] at hd
       subst hd
       simp [unknownMniDiag, mniCountDiag])
    | exact mniTypeDiags_kinds i line _ _ _ _ d hd

theorem unusedLabelDiags_kinds (allLabels : List (Str × LabelDef))
    (refLabels : List Str) :
    ∀ d ∈ unusedLabelDiags allLabels refLabels,
      d.kind ≠ DiagKind.unreachableCode := by
  intro d hd
  simp only [unusedLabelDiags, List.mem_map] at hd
  obtain ⟨p, -, rfl⟩ := hd
  simp [unusedLabelDiag]

theorem unusedDbDiags_kinds (allDbs : List (Str × DbDef))
    (refDbs : List Str) :
    ∀ d ∈ unusedDbDiags allDbs refDbs,
      d.kind ≠ DiagKind.unreachableCode := by
  intro d hd
  simp only [unusedDbDiags, List.mem_map] at hd
  obtain ⟨p, -, rfl⟩ := hd
  simp [unusedDbDiag]

theorem spliceDb_cons (rawLine : Str) (t : Str) (rest : List Str) :
    ∃ args, spliceDb rawLine (t :: rest) = t :: args := by
  match rest with
  | [] => exact ⟨[], rfl⟩
  | [a] => exact ⟨[a], rfl⟩
  | a :: b :: rest2 =>
      cases h : (toUpperStr t == str "DB") with
      | true =>
          exact ⟨[a, trimStr (substringFrom rawLine (strIndexOfFrom rawLine b
            (strIndexOf rawLine t + t.length + 1 + a.length)))],
            by simp [spliceDb, h]⟩
      | false => exact ⟨a :: b :: rest2, by simp [spliceDb, h]⟩

theorem addCounted_unreachable (st : VState) (d : Diag) :
    (addCounted st d).unreachable = st.unreachable := rfl
theorem addCountedList_unreachable (st : VState) (ds : List Diag) :
    (addCountedList st ds).unreachable = st.unreachable := rfl
theorem addUncountedList_unreachable (st : VState) (ds : List Diag) :
    (addUncountedList st ds).unreachable = st.unreachable := rfl
theorem addCounted_diags (st : VState) (d : Diag) :
    (addCounted st d).diags = st.diags ++ [d] := rfl
theorem addCountedList_diags (st : VState) (ds : List Diag) :
    (addCountedList st ds).diags = st.diags ++ ds := rfl
theorem addUncountedList_diags (st : VState) (ds : List Diag) :
    (addUncountedList st ds).diags = st.diags ++ ds := rfl

theorem validateLine_unreachable (uri : Str)
    (allLabels : List (Str × LabelDef)) (allDbs : List (Str × DbDef))
    (mni : List (Str × List Str)) (i : Nat) (raw : Str) (st : VState) :
    (validateLine uri allLabels allDbs mni i raw st).unreachable
      = flagStep raw st.unreachable := by
  simp only [validateLine, flagStep]
  repeat' split
  all_goals
    simp_all [addCounted_unreachable, addCountedList_unreachable,
      addUncountedList_unreachable, addCounted, addCountedList,
      addUncountedList]

theorem countP_pass1Diags (j : Nat) (uri : Str)
    (allLabels : List (Str × LabelDef)) (allDbs : List (Str × DbDef))
    (i : Nat) (rawLine : Str) (toks : List Str) :
    (pass1Diags uri allLabels allDbs i rawLine toks).countP (isUnreachAt j)
      = 0 :=
  countP_eq_zero_of_kinds j _ (pass1Diags_kinds uri allLabels allDbs i rawLine toks)

theorem countP_arityDiags (j i : Nat) (rawLine instruction tok0 : Str)
    (args : List Str) :
    (arityDiags i rawLine instruction tok0 args).countP (isUnreachAt j) = 0 :=
  countP_eq_zero_of_kinds j _ (arityDiags_kinds i rawLine instruction tok0 args)

theorem countP_popDiags (j i : Nat) (rawLine tok0 instruction : Str)
    (args : List Str) :
    (popDiags i rawLine tok0 instruction args).countP (isUnreachAt j) = 0 :=
  countP_eq_zero_of_kinds j _ (popDiags_kinds i rawLine tok0 instruction args)

theorem countP_argChecks (j : Nat) (uri : Str)
    (allLabels : List (Str × LabelDef)) (allDbs : List (Str × DbDef))
    (i : Nat) (rawLine tok0 instruction : Str) (args : List Str) (k : Nat)
    (prev : Option Str) (refL refD : List Str) :
    ((argChecks uri allLabels allDbs i rawLine tok0 instruction args k prev
      refL refD).1).countP (isUnreachAt j) = 0 :=
  countP_eq_zero_of_kinds j _
    (argChecks_kinds uri allLabels allDbs i rawLine tok0 instruction args k
      prev refL refD)

theorem countP_mniDiags (j : Nat) (mni : List (Str × List Str)) (i : Nat)
    (line instruction : Str) (args : List Str) :
    (mniDiags mni i line instruction args).countP (isUnreachAt j) = 0 :=
  countP_eq_zero_of_kinds j _ (mniDiags_kinds mni i line instruction args)

theorem isUnreachAt_unknownInstructionDiag (j i : Nat) (rawLine tok0 : Str)
    (s : Option Str) :
    isUnreachAt j (unknownInstructionDiag i rawLine tok0 s) = false := by
  simp [isUnreachAt, unknownInstructionDiag, mkRng]

theorem isUnreachAt_unreachableDiag (j i n : Nat) (sl : Option Nat)
    (si : Option Str) :
    isUnreachAt j (unreachableDiag i n sl si) = (i == j) := by
  simp [isUnreachAt, unreachableDiag, mkRng]

theorem spliceDb_cons_ne_nil (rawLine t : Str) (rest : List Str) :
    ¬(spliceDb rawLine (t :: rest) = []) := by
  obtain ⟨args, h⟩ := spliceDb_cons rawLine t rest
  simp [h]

theorem validateLine_countP (j : Nat) (uri : Str)
    (allLabels : List (Str × LabelDef)) (allDbs : List (Str × DbDef))
    (mni : List (Str × List Str)) (i : Nat) (raw : Str) (st : VState) :
    ((validateLine uri allLabels allDbs mni i raw st).diags).countP
        (isUnreachAt j)
      = (st.diags).countP (isUnreachAt j) +
        (if lineSkipped raw = false ∧ st.unreachable = true ∧ j = i then 1
         else 0) := by
  simp only [validateLine, lineSkipped]
  repeat' split
  all_goals first
    | exact absurd (by assumption) (spliceDb_cons_ne_nil _ _ _)
    | (simp_all [addCounted, addCountedList, addUncountedList,
        List.countP_append, List.countP_cons, countP_pass1Diags,
        countP_arityDiags, countP_popDiags, countP_argChecks,
        countP_mniDiags, isUnreachAt_unknownInstructionDiag,
        isUnreachAt_unreachableDiag]
       try omega)

theorem validateLine_cap_inv (uri : Str) (allLabels : List (Str × LabelDef))
    (allDbs : List (Str × DbDef)) (mni : List (Str × List Str)) (i : Nat)
    (raw : Str) (st : VState) (h : st.problems ≤ st.diags.length) :
    (validateLine uri allLabels allDbs mni i raw st).problems ≤
      (validateLine uri allLabels allDbs mni i raw st).diags.length ∧
    st.diags.length ≤
      (validateLine uri allLabels allDbs mni i raw st).diags.length := by
  simp only [validateLine]
  repeat' split
  all_goals
    simp_all [addCounted, addCountedList, addUncountedList,
      List.length_append]
  all_goals omega

theorem validateLineFold_cap_inv (uri : Str)
    (allLabels : List (Str × LabelDef)) (allDbs : List (Str × DbDef))
    (mni : List (Str × List Str)) :
    ∀ (lns : List (Nat × Str)) (st : VState),
      st.problems ≤ st.diags.length →
      (validateLineFold uri allLabels allDbs mni lns st).problems ≤
        (validateLineFold uri allLabels allDbs mni lns st).diags.length ∧
      st.diags.length ≤
        (validateLineFold uri allLabels allDbs mni lns st).diags.length
  | [], st, h => ⟨h, Nat.le_refl _⟩
  | (i, raw) :: rest, st, h => by
      have h1 := validateLine_cap_inv uri allLabels allDbs mni i raw st h
      have h2 := validateLineFold_cap_inv uri allLabels allDbs mni rest
        (validateLine uri allLabels allDbs mni i raw st) h1.1
      exact ⟨h2.1, Nat.le_trans h1.2 h2.2⟩

theorem validateLoop_cases (uri : Str) (allLabels : List (Str × LabelDef))
    (allDbs : List (Str × DbDef)) (mni : List (Str × List Str))
    (maxProblems : Nat) :
    ∀ (lns : List (Nat × Str)) (st : VState),
      validateLoop uri allLabels allDbs mni maxProblems lns st
        = validateLineFold uri allLabels allDbs mni lns st ∨
      maxProblems ≤
        (validateLoop uri allLabels allDbs mni maxProblems lns st).problems
  | [], st => Or.inl rfl
  | (i, raw) :: rest, st => by
      by_cases hp : st.problems < maxProblems
      · have := validateLoop_cases uri allLabels allDbs mni maxProblems rest
          (validateLine uri allLabels allDbs mni i raw st)
        rcases this with h | h
        · exact Or.inl (by simp only [validateLoop, if_pos hp]; exact h)
        · exact Or.inr (by simp only [validateLoop, if_pos hp]; exact h)
      · refine Or.inr ?_
        simp only [validateLoop, if_neg hp]
        omega

theorem validateLoop_cap_inv (uri : Str) (allLabels : List (Str × LabelDef))
    (allDbs : List (Str × DbDef)) (mni : List (Str × List Str))
    (maxProblems : Nat) :
    ∀ (lns : List (Nat × Str)) (st : VState),
      st.problems ≤ st.diags.length →
      (validateLoop uri allLabels allDbs mni maxProblems lns st).problems ≤
        (validateLoop uri allLabels allDbs mni maxProblems lns st).diags.length
  | [], st, h => h
  | (i, raw) :: rest, st, h => by
      by_cases hp : st.problems < maxProblems
      · simp only [validateLoop, if_pos hp]
        exact validateLoop_cap_inv uri allLabels allDbs mni maxProblems rest
          (validateLine uri allLabels allDbs mni i raw st)
          (validateLine_cap_inv uri allLabels allDbs mni i raw st h).1
      · simp only [validateLoop, if_neg hp]
        exact h

theorem warnExpectedFrom_of_lt :
    ∀ (lns : List Str) (n j : Nat) (b : Bool), j < n →
      warnExpectedFrom n b lns j = false
  | [], _, _, _, _ => rfl
  | l :: rest, n, j, b, h => by
      unfold warnExpectedFrom
      rw [if_neg (by omega)]
      exact warnExpectedFrom_of_lt rest (n + 1) j (flagStep l b) (by omega)

theorem validateLineFold_countP (j : Nat) (uri : Str)
    (allLabels : List (Str × LabelDef)) (allDbs : List (Str × DbDef))
    (mni : List (Str × List Str)) :
    ∀ (lns : List Str) (n : Nat) (st : VState),
      ((validateLineFold uri allLabels allDbs mni (List.enumFrom n lns)
          st).diags).countP (isUnreachAt j)
        = (st.diags).countP (isUnreachAt j) +
          (if warnExpectedFrom n st.unreachable lns j = true then 1 else 0)
  | [], n, st => by simp [validateLineFold, warnExpectedFrom]
  | l :: rest, n, st => by
      rw [List.enumFrom_cons]
      have hstep : validateLineFold uri allLabels allDbs mni
          ((n, l) :: List.enumFrom (n + 1) rest) st
          = validateLineFold uri allLabels allDbs mni
            (List.enumFrom (n + 1) rest)
            (validateLine uri allLabels allDbs mni n l st) := rfl
      rw [hstep]
      rw [validateLineFold_countP j uri allLabels allDbs mni rest (n + 1)
        (validateLine uri allLabels allDbs mni n l st)]
      rw [validateLine_countP j uri allLabels allDbs mni n l st]
      rw [validateLine_unreachable uri allLabels allDbs mni n l st]
      by_cases hj : j = n
      · subst hj
        rw [warnExpectedFrom_of_lt rest (j + 1) j (flagStep l st.unreachable)
          (by omega)]
        unfold warnExpectedFrom
        rw [if_pos rfl]
        cases hskip : lineSkipped l <;> cases hb : st.unreachable <;> simp_all
      · rw [if_neg (by simp [hj])]
        have hrw : warnExpectedFrom n st.unreachable (l :: rest) j
            = warnExpectedFrom (n + 1) (flagStep l st.unreachable) rest j := by
          conv_lhs => rw [warnExpectedFrom]
          rw [if_neg hj]
        rw [hrw]
        omega

theorem keepDiag_true (d : Diag) : keepDiag d = true := by
  unfold keepDiag
  split <;> rfl

theorem filter_keepDiag (l : List Diag) : l.filter keepDiag = l :=
  List.filter_eq_self.mpr (fun d _ => keepDiag_true d)

theorem validateAllDiags_countP (uri text : Str) (maxP : Nat)
    (info : ParsedDocInfo) (mni : List (Str × List Str)) (j : Nat)
    (hinc : ∀ d ∈ info.includeErrors, d.kind ≠ DiagKind.unreachableCode)
    (hcap : ((validateAllDiags uri text maxP info mni).1).length < maxP) :
    ((validateAllDiags uri text maxP info mni).1).countP (isUnreachAt j)
      = if warnExpectedFrom 0 false (splitLines text) j = true then 1
        else 0 := by
  simp only [validateAllDiags] at hcap ⊢
  rcases validateLoop_cases uri info.labels info.dbAddresses mni maxP
      (splitLines text).enum (initialVState info) with hEq | hGe
  · rw [hEq] at hcap ⊢
    rw [List.countP_append, List.countP_append]
    rw [countP_eq_zero_of_kinds j _ (unusedLabelDiags_kinds info.labels _)]
    rw [countP_eq_zero_of_kinds j _ (unusedDbDiags_kinds info.dbAddresses _)]
    have henum : (splitLines text).enum
        = List.enumFrom 0 (splitLines text) := rfl
    rw [henum]
    rw [validateLineFold_countP j uri info.labels info.dbAddresses mni
      (splitLines text) 0 (initialVState info)]
    simp [initialVState, countP_eq_zero_of_kinds j _ hinc]
  · exfalso
    have h1 : (initialVState info).problems ≤
        (initialVState info).diags.length := Nat.le_of_eq rfl
    have h2 := validateLoop_cap_inv uri info.labels info.dbAddresses mni maxP
      (splitLines text).enum (initialVState info) h1
    rw [List.length_append, List.length_append] at hcap
    omega

/-- Claim C6, as amended: provided the problem cap is not reached (the
returned list is shorter than `maxNumberOfProblems`) and the resolver's
include errors carry no unreachable-code diagnostics, line `j` of the
document carries exactly one UnreachableCodeWarning when the flag automaton
predicts one, and none otherwise: a known `HLT`/`JMP`/`EXIT` sets the
unreachable flag, every subsequent non-blank, non-comment, **non-include**
line receives exactly one warning while the flag is set (the `LBL` line
itself included), an `LBL` line clears the flag for the lines after it, and
skipped lines — blank, comment, and `#include` lines — never receive one. -/
theorem unreachable_warnings_follow_flag (uri text : Str) (maxP : Nat)
    (info : ParsedDocInfo) (mni : List (Str × List Str)) (j : Nat)
    (hinc : ∀ d ∈ info.includeErrors, d.kind ≠ DiagKind.unreachableCode)
    (hcap : (validateTextDocument uri text maxP info mni).length < maxP) :
    (validateTextDocument uri text maxP info mni).countP (isUnreachAt j)
      = if warnExpectedFrom 0 false (splitLines text) j = true then 1
        else 0 := by
  have hfilter : ((validateAllDiags uri text maxP info mni).1).filter keepDiag
      = (validateAllDiags uri text maxP info mni).1 := filter_keepDiag _
  have hlen : ((validateAllDiags uri text maxP info mni).1).length < maxP := by
    have hc := hcap
    unfold validateTextDocument at hc
    rw [hfilter, List.length_take] at hc
    omega
  unfold validateTextDocument
  rw [hfilter, List.take_of_length_le (Nat.le_of_lt hlen)]
  exact validateAllDiags_countP uri text maxP info mni j hinc hlen

/-- Witness for C6: in `HLT / MOV / LBL / MOV`, the instruction line right
after `HLT` receives exactly one unreachable-code warning. -/
theorem unreachable_warnings_follow_flag_witness :
    (validateTextDocument (str "file:a")
      (str "HLT\nMOV RAX RBX\nLBL L\nMOV RAX RBX") 100 ⟨[], [], []⟩
      []).countP (isUnreachAt 1) = 1 := by
  have h := unreachable_warnings_follow_flag (str "file:a")
    (str "HLT\nMOV RAX RBX\nLBL L\nMOV RAX RBX") 100 ⟨[], [], []⟩ [] 1
    (fun d hd => absurd hd (List.not_mem_nil d)) (by decide)
  rw [h]
  decide

/-- Counterexample to claim C6 as stated: after `HLT`, the line
`#include "x"` is non-blank and non-comment, yet it receives no
UnreachableCodeWarning — include lines are skipped before the warning is
considered. -/
theorem include_line_no_unreachable_warning :
    (trimStr (str "#include \"x\"")).isEmpty = false ∧
    ((trimStr (str "#include \"x\"")).head? == some ';') = false ∧
    (validateTextDocument (str "file:a") (str "HLT\n#include \"x\"") 100
      ⟨[], [], []⟩ []).countP (isUnreachAt 1) = 0 := by
  decide

end MasmLsp
